import Mathlib

/-!
Shallow embedding of the bioWatch_Prep acquisition-and-conditioning pipeline
(SensorManager in src/src/sensor.cpp plus the orchestrator loop in main.cpp),
with theorems about its buffer, gain, quality-gate, estimator and stabilizer
logic.  Machine integers (`int32_t`, `long`, `int`) are modelled as `Int`;
the C++ truncating division of nonnegative-or-signed values is `Int.tdiv`;
the `uint8_t` LED-brightness register is modelled as a natural number with
explicit `% 256` wraparound.
-/

namespace BioWatch

/-- HR_HISTORY_SIZE from constants.h: capacity of the circular HR history. -/
def HR_HISTORY_SIZE : Nat := 8

/-- MAX_HR_JUMP from constants.h: largest accepted cycle-to-cycle HR change. -/
def MAX_HR_JUMP : Int := 20

/-- Result quadruple returned by the external extraction algorithm
`maxim_heart_rate_and_oxygen_saturation` (consumed as an opaque function). -/
structure AlgOutput where
  n_spo2 : Int
  valid_spo2 : Bool
  n_hr : Int
  valid_hr : Bool
  deriving DecidableEq

/-- The mutable state touched by `SensorManager::calculateHRSpO2` and
`SensorManager::smoothHR`: the two sample buffers, the circular HR history
with its write cursor, and the per-cycle result globals. -/
structure SensorState where
  irBuffer : List Int
  redBuffer : List Int
  hrHistory : List Int
  hrIndex : Nat
  heartRate : Int
  spo2 : Int
  validHeartRate : Bool
  validSpo2 : Bool
  deriving DecidableEq

/-- The channel mean computed in `calculateHRSpO2` step 1:
`ir_mean += irBuffer[i]; ir_mean /= MY_BUFFER_SIZE` (C++ `long` division
truncates toward zero). -/
def dcMean (xs : List Int) : Int :=
  xs.sum.tdiv (xs.length : Int)

/-- DC removal: `irBuffer[i] -= ir_mean` for every index. -/
def removeDC (m : Int) (xs : List Int) : List Int :=
  xs.map (fun x => x - m)

/-- DC restoration: `irBuffer[i] += ir_mean` for every index. -/
def restoreDC (m : Int) (xs : List Int) : List Int :=
  xs.map (fun x => x + m)

/-- The accept path of `SensorManager::smoothHR` (sensor.cpp lines 245-252):
write the candidate into the circular history, advance the cursor, and
replace `heartRate` by the truncated mean of the held entries. -/
def smoothHRAccept (st : SensorState) : SensorState :=
  let hist := st.hrHistory.set (st.hrIndex % HR_HISTORY_SIZE) st.heartRate
  let idx := st.hrIndex + 1
  let count := min idx HR_HISTORY_SIZE
  { st with hrHistory := hist
            hrIndex := idx
            heartRate := ((hist.take count).sum).tdiv (count : Int) }

/-- `SensorManager::smoothHR` (sensor.cpp lines 234-253): outlier rejection
against the most recently accepted history entry, then circular-history
averaging. -/
def smoothHR (st : SensorState) : SensorState :=
  if 0 < st.hrIndex then
    let prev := st.hrHistory.getD ((st.hrIndex - 1) % HR_HISTORY_SIZE) 0
    if MAX_HR_JUMP < |st.heartRate - prev| then
      { st with validHeartRate := false }
    else
      smoothHRAccept st
  else
    smoothHRAccept st

/-- `SensorManager::calculateHRSpO2` (sensor.cpp lines 191-232): subtract the
per-channel means, invoke the external algorithm `alg` on the AC-coupled
buffers, add the means back, then apply the plausibility bounds and the
smoothing stage. -/
def calculateHRSpO2 (alg : List Int → List Int → AlgOutput) (st : SensorState) :
    SensorState :=
  let ir_mean := dcMean st.irBuffer
  let red_mean := dcMean st.redBuffer
  let irAC := removeDC ir_mean st.irBuffer
  let redAC := removeDC red_mean st.redBuffer
  let out := alg irAC redAC
  let st1 := { st with irBuffer := restoreDC ir_mean irAC
                       redBuffer := restoreDC red_mean redAC }
  let validHR := out.valid_hr && decide (40 ≤ out.n_hr) && decide (out.n_hr ≤ 200)
  let st2 :=
    if validHR then
      smoothHR { st1 with heartRate := out.n_hr, validHeartRate := true }
    else
      { st1 with validHeartRate := false }
  let validS := out.valid_spo2 && decide (70 ≤ out.n_spo2) && decide (out.n_spo2 ≤ 100)
  { st2 with validSpo2 := validS
             spo2 := if validS then out.n_spo2 else 0 }

theorem restoreDC_removeDC (m : Int) (xs : List Int) :
    restoreDC m (removeDC m xs) = xs := by
  unfold restoreDC removeDC
  rw [List.map_map]
  have h : ((fun x => x + m) ∘ fun x => x - m) = id := by
    funext x
    simp
  rw [h, List.map_id]

theorem smoothHR_irBuffer (st : SensorState) : (smoothHR st).irBuffer = st.irBuffer := by
  unfold smoothHR smoothHRAccept
  split
  · dsimp only
    split <;> rfl
  · rfl

theorem smoothHR_redBuffer (st : SensorState) : (smoothHR st).redBuffer = st.redBuffer := by
  unfold smoothHR smoothHRAccept
  split
  · dsimp only
    split <;> rfl
  · rfl

/-- C2: `calculateHRSpO2` subtracts each channel's truncated arithmetic mean
before invoking the external extraction algorithm and adds the same mean back
afterwards, so both buffers hold exactly their original samples after the
call, for every window and every behaviour of the external algorithm. -/
theorem calculateHRSpO2_preserves_buffers
    (alg : List Int → List Int → AlgOutput) (st : SensorState) :
    (calculateHRSpO2 alg st).irBuffer = st.irBuffer ∧
    (calculateHRSpO2 alg st).redBuffer = st.redBuffer := by
  unfold calculateHRSpO2
  constructor
  · show (if _ then smoothHR _ else _).irBuffer = st.irBuffer
    split
    · rw [smoothHR_irBuffer]
      exact restoreDC_removeDC _ _
    · exact restoreDC_removeDC _ _
  · show (if _ then smoothHR _ else _).redBuffer = st.redBuffer
    split
    · rw [smoothHR_redBuffer]
      exact restoreDC_removeDC _ _
    · exact restoreDC_removeDC _ _

/-- C4: with a non-empty history, a candidate differing from the most recently
accepted value by more than MAX_HR_JUMP is rejected: `validHeartRate` becomes
false and the history contents and write cursor are untouched. -/
theorem smoothHR_rejects_jump (st : SensorState) (h : 0 < st.hrIndex)
    (hjump : MAX_HR_JUMP <
      |st.heartRate - st.hrHistory.getD ((st.hrIndex - 1) % HR_HISTORY_SIZE) 0|) :
    smoothHR st = { st with validHeartRate := false } := by
  unfold smoothHR
  rw [if_pos h]
  dsimp only
  rw [if_pos hjump]

/-- History [70] (cursor 1), candidate 95, threshold 20: rejected, state
unchanged apart from the validity flag. -/
def jumpState : SensorState :=
  { irBuffer := []
    redBuffer := []
    hrHistory := [70, 0, 0, 0, 0, 0, 0, 0]
    hrIndex := 1
    heartRate := 95
    spo2 := 0
    validHeartRate := true
    validSpo2 := false }

theorem smoothHR_rejects_jump_witness :
    0 < jumpState.hrIndex ∧
    MAX_HR_JUMP <
      |jumpState.heartRate -
        jumpState.hrHistory.getD ((jumpState.hrIndex - 1) % HR_HISTORY_SIZE) 0| ∧
    smoothHR jumpState = { jumpState with validHeartRate := false } :=
  ⟨by decide, by decide, smoothHR_rejects_jump jumpState (by decide) (by decide)⟩

/-- C5: the reported validity flags imply the plausibility bounds: whatever
quadruple the external algorithm returns, `validHeartRate` ends up true only
when the algorithm HR lies in [40, 200] and `validSpo2` only when the
algorithm SpO2 lies in [70, 100]. -/
theorem calculateHRSpO2_plausibility (out : AlgOutput) (st : SensorState) :
    ((calculateHRSpO2 (fun _ _ => out) st).validHeartRate = true →
      40 ≤ out.n_hr ∧ out.n_hr ≤ 200) ∧
    ((calculateHRSpO2 (fun _ _ => out) st).validSpo2 = true →
      70 ≤ out.n_spo2 ∧ out.n_spo2 ≤ 100) := by
  unfold calculateHRSpO2
  dsimp only
  constructor
  · intro h
    split at h
    · next hcond =>
        simp only [Bool.and_eq_true, decide_eq_true_eq] at hcond
        exact ⟨hcond.1.2, hcond.2⟩
    · exact absurd h (by simp)
  · intro h
    simp only [Bool.and_eq_true, decide_eq_true_eq] at h
    exact ⟨h.1.2, h.2⟩

/-- A state on which the C5 witness evaluates the pipeline concretely. -/
def plausibilityState : SensorState :=
  { irBuffer := [100, 200]
    redBuffer := [100, 200]
    hrHistory := [0, 0, 0, 0, 0, 0, 0, 0]
    hrIndex := 0
    heartRate := 0
    spo2 := 0
    validHeartRate := false
    validSpo2 := false }

theorem calculateHRSpO2_plausibility_witness :
    (calculateHRSpO2 (fun _ _ => ⟨95, true, 72, true⟩) plausibilityState).validHeartRate = true ∧
    (calculateHRSpO2 (fun _ _ => ⟨95, true, 72, true⟩) plausibilityState).validSpo2 = true ∧
    (40 ≤ (72 : Int) ∧ (72 : Int) ≤ 200) ∧ (70 ≤ (95 : Int) ∧ (95 : Int) ≤ 100) :=
  ⟨by decide, by decide,
   (calculateHRSpO2_plausibility ⟨95, true, 72, true⟩ plausibilityState).1 (by decide),
   (calculateHRSpO2_plausibility ⟨95, true, 72, true⟩ plausibilityState).2 (by decide)⟩

/-- The extrema scan at the top of `SensorManager::checkSignalQuality`
(sensor.cpp lines 100-108): seeded from sample 0, folded over the rest. -/
def scanMinMax (xs : List Int) : Int × Int :=
  match xs with
  | [] => (0, 0)
  | h :: t =>
      t.foldl (fun mm x => (if x < mm.1 then x else mm.1, if mm.2 < x then x else mm.2)) (h, h)

/-- The per-cycle good/bad decision of the quality gate (sensor.cpp lines
135-137), computed from the two channels' extrema scans. -/
def goodSignal (ir red : List Int) : Bool :=
  let mmIR := scanMinMax ir
  let mmRed := scanMinMax red
  let irPulsatile := mmIR.2 - mmIR.1
  let redPulsatile := mmRed.2 - mmRed.1
  decide (mmIR.2 < 240000) && decide (mmRed.2 < 240000) &&
    decide (6000 ≤ irPulsatile) && decide (3000 ≤ redPulsatile) &&
    decide (20000 ≤ mmIR.1)

/-- C8: two-run determinism of the quality gate: any two buffer states with
identical IR and red extrema produce the identical good/bad decision,
independently of the other sample values. -/
theorem goodSignal_determined_by_extrema
    (ir1 red1 ir2 red2 : List Int)
    (hir : scanMinMax ir1 = scanMinMax ir2)
    (hred : scanMinMax red1 = scanMinMax red2) :
    goodSignal ir1 red1 = goodSignal ir2 red2 := by
  unfold goodSignal
  rw [hir, hred]

theorem goodSignal_determined_by_extrema_witness :
    scanMinMax [25000, 40000, 31000] = scanMinMax [25000, 26000, 40000] ∧
    scanMinMax [10000, 17000, 12000] = scanMinMax [10000, 11000, 17000] ∧
    goodSignal [25000, 40000, 31000] [10000, 17000, 12000] =
      goodSignal [25000, 26000, 40000] [10000, 11000, 17000] :=
  ⟨by decide, by decide,
   goodSignal_determined_by_extrema _ _ _ _ (by decide) (by decide)⟩

/-- LED_BRIGHTNESS_DEFAULT from constants.h: initial emitter drive level. -/
def LED_BRIGHTNESS_DEFAULT : Nat := 60

/-- The emitter-gain adjustment inside `SensorManager::checkSignalQuality`
(sensor.cpp lines 121-133), acting on the `uint8_t` register
`currentLedBrightness` given the window extrema.  `currentLedBrightness -= 25`
is `uint8_t` compound assignment, i.e. subtraction modulo 256 (written
`(b + 231) % 256`), and `+= 30` likewise wraps modulo 256. -/
def gainStep (minIR maxIR minRed maxRed : Int) (b : Nat) : Nat :=
  if 240000 < maxIR ∨ 240000 < maxRed ∨ 200000 < maxIR - minIR then
    let b1 := (b + 231) % 256
    if b1 < 20 then 20 else b1
  else if maxIR - minIR < 6000 ∨ maxRed - minRed < 3000 ∨ minIR < 20000 then
    let b1 := (b + 30) % 256
    if 120 < b1 then 120 else b1
  else b

/-- One adjustment cycle on a window whose IR maximum saturates the upper
bound (maxIR = 250000 > 240000), taking the decrease branch. -/
def saturatedGainStep (b : Nat) : Nat := gainStep 0 250000 0 0 b

/-- C1 (failing evaluation): starting from the default drive level 60, three
consecutive saturation cycles reach the floor 20 and then underflow the
`uint8_t` subtraction: 20 - 25 wraps to 251, which the `< 20` floor check
does not catch, so the drive level leaves [20, 120]. -/
theorem gain_floor_underflow :
    saturatedGainStep LED_BRIGHTNESS_DEFAULT = 35 ∧
    saturatedGainStep 35 = 20 ∧
    saturatedGainStep 20 = 251 ∧
    ¬ (saturatedGainStep 20 ≤ 120) := by decide

/-- The orchestrator state touched by the failure-recovery path of `loop()`
in main.cpp: the Priming flag `firstRun`, the consecutive-failure counter
`errorCount`, and an observer counting `sensor.softReset()` calls. -/
structure LoopState where
  firstRun : Bool
  errorCount : Nat
  resets : Nat
  deriving DecidableEq

/-- State after `setup()`: Priming, no failures, no resets. -/
def initLoopState : LoopState := ⟨true, 0, 0⟩

/-- One iteration of `loop()` (main.cpp, part_011 lines 100-124) against a
sample source that always times out: the acquisition step fails (`firstRun`
is cleared after a first-run fill attempt), the error counter increments,
and when `errorCount > 8` the orchestrator soft-resets the sensor, clears
the counter and forces a buffer refill. -/
def failingCycle (st : LoopState) : LoopState :=
  let st1 := if st.firstRun then { st with firstRun := false } else st
  let e := st1.errorCount + 1
  if 8 < e then
    { st1 with errorCount := 0, firstRun := true, resets := st1.resets + 1 }
  else
    { st1 with errorCount := e }

/-- C3 (counterexample): after exactly 8 consecutive failed acquisition
cycles no soft-reset has been performed (`errorCount > 8` is still false at
8) and the machine has not returned to Priming. -/
theorem eight_failures_no_reset :
    (Nat.iterate failingCycle 8 initLoopState).resets = 0 ∧
    (Nat.iterate failingCycle 8 initLoopState).firstRun = false ∧
    (Nat.iterate failingCycle 8 initLoopState).errorCount = 8 := by decide

/-- C3 (amended): against an always-timing-out source, the soft-reset happens
on the 9th consecutive failed cycle, i.e. once the counter exceeds the
threshold 8: exactly one reset has occurred, the failure counter is cleared
and the machine is back in Priming (`firstRun` true). -/
theorem nine_failures_one_reset :
    Nat.iterate failingCycle 9 initLoopState =
      { firstRun := true, errorCount := 0, resets := 1 } := by decide

/-- The two fixed-length sample channels of the sliding window. -/
structure Buffers where
  red : List Int
  ir : List Int
  deriving DecidableEq

/-- `memmove(buf, buf + 1, (N - 1) * sizeof(int32_t))`: shift one slot left;
slot N-1 keeps its old value (now duplicated). -/
def shiftLeft (l : List Int) : List Int := l.drop 1 ++ [l.getLastD 0]

/-- Write the freshly read sample into slot N-1. -/
def writeLast (l : List Int) (x : Int) : List Int := l.set (l.length - 1) x

/-- `SensorManager::fillInitialBuffer` (sensor.cpp lines 68-80): pull one
(red, ir) pair per slot from the sample source `reads` left to right; a
`none` read is a timeout and aborts the fill. -/
def fillInitialBuffer : Nat → List (Option (Int × Int)) → Option Buffers
  | 0, _ => some ⟨[], []⟩
  | _ + 1, [] => none
  | _ + 1, none :: _ => none
  | n + 1, some (r, i) :: rest =>
      (fillInitialBuffer n rest).map fun b => ⟨r :: b.red, i :: b.ir⟩

/-- `SensorManager::updateSlidingWindow` (sensor.cpp lines 82-94): `k`
(= SLIDING_ADDITIONS) iterations, each shifting both channels left and then
reading the newest sample into the last slot; a timeout aborts mid-slide
with the shift already applied. -/
def updateSlidingWindow : Nat → List (Option (Int × Int)) → Buffers → Buffers × Bool
  | 0, _, b => (b, true)
  | k + 1, reads, b =>
      let red1 := shiftLeft b.red
      let ir1 := shiftLeft b.ir
      match reads with
      | [] => (⟨red1, ir1⟩, false)
      | none :: _ => (⟨red1, ir1⟩, false)
      | some (r, i) :: rest =>
          updateSlidingWindow k rest ⟨writeLast red1 r, writeLast ir1 i⟩

theorem shiftLeft_length (l : List Int) (h : l ≠ []) :
    (shiftLeft l).length = l.length := by
  unfold shiftLeft
  have h1 : 1 ≤ l.length := List.length_pos.mpr h
  simp
  omega

theorem writeLast_length (l : List Int) (x : Int) :
    (writeLast l x).length = l.length := by
  simp [writeLast]

theorem fillInitialBuffer_length (n : Nat) (reads : List (Option (Int × Int)))
    (b : Buffers) (h : fillInitialBuffer n reads = some b) :
    b.red.length = n ∧ b.ir.length = n := by
  induction n generalizing reads b with
  | zero =>
      unfold fillInitialBuffer at h
      cases h
      exact ⟨rfl, rfl⟩
  | succ m ih =>
      match reads with
      | [] => exact absurd h (by simp [fillInitialBuffer])
      | none :: rest => exact absurd h (by simp [fillInitialBuffer])
      | some (r, i) :: rest =>
          unfold fillInitialBuffer at h
          match hm : fillInitialBuffer m rest with
          | none => rw [hm] at h; cases h
          | some b0 =>
              rw [hm] at h
              cases h
              have := ih rest b0 hm
              constructor <;> simp [this.1, this.2]

theorem updateSlidingWindow_length (k : Nat) (reads : List (Option (Int × Int)))
    (b : Buffers) (hr : b.red ≠ []) (hi : b.ir ≠ []) :
    (updateSlidingWindow k reads b).1.red.length = b.red.length ∧
    (updateSlidingWindow k reads b).1.ir.length = b.ir.length := by
  induction k generalizing reads b with
  | zero => exact ⟨rfl, rfl⟩
  | succ m ih =>
      have hrl := shiftLeft_length b.red hr
      have hil := shiftLeft_length b.ir hi
      match reads with
      | [] => exact ⟨hrl, hil⟩
      | none :: rest => exact ⟨hrl, hil⟩
      | some (r, i) :: rest =>
          have hstep : updateSlidingWindow (m + 1) (some (r, i) :: rest) b =
              updateSlidingWindow m rest
                ⟨writeLast (shiftLeft b.red) r, writeLast (shiftLeft b.ir) i⟩ := rfl
          rw [hstep]
          have hr1 : writeLast (shiftLeft b.red) r ≠ [] := by
            intro hnil
            have := writeLast_length (shiftLeft b.red) r
            rw [hnil] at this
            simp [hrl] at this
            exact hr (List.length_eq_zero.mp this.symm)
          have hi1 : writeLast (shiftLeft b.ir) i ≠ [] := by
            intro hnil
            have := writeLast_length (shiftLeft b.ir) i
            rw [hnil] at this
            simp [hil] at this
            exact hi (List.length_eq_zero.mp this.symm)
          have := ih rest ⟨writeLast (shiftLeft b.red) r, writeLast (shiftLeft b.ir) i⟩ hr1 hi1
          refine ⟨?_, ?_⟩
          · rw [this.1]
            simp [writeLast_length, hrl]
          · rw [this.2]
            simp [writeLast_length, hil]

/-- C6: after a successful `fillInitialBuffer` for window size N both channels
hold exactly N samples, and every subsequent slide operation — whether it
completes or aborts on a mid-slide timeout — leaves both channel lengths at
exactly N. -/
theorem window_length_invariant (n k : Nat)
    (reads reads2 : List (Option (Int × Int))) (b : Buffers)
    (hfill : fillInitialBuffer n reads = some b) (hn : 0 < n) :
    b.red.length = n ∧ b.ir.length = n ∧
    (updateSlidingWindow k reads2 b).1.red.length = n ∧
    (updateSlidingWindow k reads2 b).1.ir.length = n := by
  obtain ⟨h1, h2⟩ := fillInitialBuffer_length n reads b hfill
  have hr : b.red ≠ [] := by
    intro hnil
    rw [hnil] at h1
    simp at h1
    omega
  have hi : b.ir ≠ [] := by
    intro hnil
    rw [hnil] at h2
    simp at h2
    omega
  obtain ⟨h3, h4⟩ := updateSlidingWindow_length k reads2 b hr hi
  exact ⟨h1, h2, h3.trans h1, h4.trans h2⟩

theorem window_length_invariant_witness :
    fillInitialBuffer 2 [some (1, 2), some (3, 4)] = some ⟨[1, 3], [2, 4]⟩ ∧
    0 < 2 ∧
    (updateSlidingWindow 2 [some (5, 6), none] ⟨[1, 3], [2, 4]⟩).1.red.length = 2 ∧
    (updateSlidingWindow 2 [some (5, 6), none] ⟨[1, 3], [2, 4]⟩).1.ir.length = 2 :=
  ⟨by decide, by decide,
   (window_length_invariant 2 2 [some (1, 2), some (3, 4)] [some (5, 6), none]
      ⟨[1, 3], [2, 4]⟩ (by decide) (by decide)).2.2.1,
   (window_length_invariant 2 2 [some (1, 2), some (3, 4)] [some (5, 6), none]
      ⟨[1, 3], [2, 4]⟩ (by decide) (by decide)).2.2.2⟩

/-- The peak test of `SensorManager::simpleHRCalc`:
`irBuffer[i-1] < irBuffer[i] && irBuffer[i] > irBuffer[i+1]`. -/
def isLocalMax (ir : List Int) (i : Nat) : Bool :=
  decide (ir.getD (i - 1) 0 < ir.getD i 0) && decide (ir.getD (i + 1) 0 < ir.getD i 0)

/-- The crossing count of `SensorManager::simpleHRCalc` (sensor.cpp lines
255-266): the scan runs `for (int i = 2; i < MY_BUFFER_SIZE - 1; i++)`,
i.e. over loop-counter values 2 .. N-2. -/
def simpleHRCrossings (ir : List Int) : Nat :=
  ((List.range' 2 (ir.length - 3)).filter fun i => isLocalMax ir i).length

/-- The fallback heart rate:
`heartRate = crossings * (60 * SAMPLE_RATE / MY_BUFFER_SIZE)` with C++
integer (truncating) division. -/
def simpleHRCalcHeartRate (sampleRate : Nat) (ir : List Int) : Int :=
  (simpleHRCrossings ir : Int) * ((60 * sampleRate / ir.length : Nat) : Int)

/-- Modelled from the spec wording of the fallback estimator: the number of
samples in the window that are strictly greater than both neighbours, over
all interior indices 1 .. N-2 (boundary samples have only one neighbour). -/
def specLocalMaxCount (ir : List Int) : Nat :=
  ((List.range' 1 (ir.length - 2)).filter fun i => isLocalMax ir i).length

/-- A 50-sample window with exactly 5 local maxima, one of them at index 1. -/
def jaggedWindow : List Int :=
  (List.range 50).map fun i =>
    if i = 1 ∨ i = 10 ∨ i = 20 ∨ i = 30 ∨ i = 40 then 10 else 0

/-- C7 (counterexample): on a 50-sample window at 50 samples/sec with exactly
5 local maxima the fallback estimator yields 240, not 5 * (60*50/50) = 300,
because its scan starts at loop counter 2 and never tests the sample at
index 1. -/
theorem fallback_misses_first_peak :
    jaggedWindow.length = 50 ∧
    specLocalMaxCount jaggedWindow = 5 ∧
    simpleHRCalcHeartRate 50 jaggedWindow = 240 ∧
    (240 : Int) ≠ (5 : Int) * ((60 * 50 / 50 : Nat) : Int) := by decide

theorem crossings_eq_specCount (ir : List Int) (h : isLocalMax ir 1 = false) :
    simpleHRCrossings ir = specLocalMaxCount ir := by
  unfold simpleHRCrossings specLocalMaxCount
  rcases Nat.lt_or_ge ir.length 3 with h3 | h3
  · have e2 : ir.length - 2 = 0 := by omega
    have e3 : ir.length - 3 = 0 := by omega
    rw [e2, e3]
    rfl
  · obtain ⟨m, hm⟩ : ∃ m, ir.length = m + 3 := ⟨ir.length - 3, by omega⟩
    have e2 : ir.length - 2 = m + 1 := by omega
    have e3 : ir.length - 3 = m := by omega
    rw [e2, e3, List.range'_succ]
    simp [List.filter_cons, h]

/-- C7 (amended): for every infrared window with no local maximum at index 1
(the one interior sample the scan skips), the fallback estimator computes HR
as the number of local maxima times `60 * sampleRate / windowLength`; the
300-bpm example holds whenever the 5 maxima sit at indices 2 .. N-2. -/
theorem simpleHRCalc_formula (sampleRate : Nat) (ir : List Int)
    (h : isLocalMax ir 1 = false) :
    simpleHRCalcHeartRate sampleRate ir =
      (specLocalMaxCount ir : Int) * ((60 * sampleRate / ir.length : Nat) : Int) := by
  unfold simpleHRCalcHeartRate
  rw [crossings_eq_specCount ir h]

/-- A 50-sample window with exactly 5 local maxima, all at indices ≥ 2. -/
def spacedWindow : List Int :=
  (List.range 50).map fun i =>
    if i = 5 ∨ i = 10 ∨ i = 20 ∨ i = 30 ∨ i = 40 then 10 else 0

theorem simpleHRCalc_formula_witness :
    isLocalMax spacedWindow 1 = false ∧
    specLocalMaxCount spacedWindow = 5 ∧
    spacedWindow.length = 50 ∧
    simpleHRCalcHeartRate 50 spacedWindow = 300 ∧
    simpleHRCalcHeartRate 50 spacedWindow =
      (specLocalMaxCount spacedWindow : Int) *
        ((60 * 50 / spacedWindow.length : Nat) : Int) :=
  ⟨by decide, by decide, by decide, by decide,
   simpleHRCalc_formula 50 spacedWindow (by decide)⟩

/-- Loop-counter values of the fallback scan in the part_003 variant of
`SensorManager::simpleHRCalc` (`for (int i = 1; i < MY_BUFFER_SIZE; i++)`). -/
def v003ScanCounters (n : Nat) : List Nat := List.range' 1 (n - 1)

/-- All buffer indices the part_003 fallback scan reads: iteration i reads
irBuffer[i-1], irBuffer[i] and irBuffer[i+1]. -/
def v003ScanReads (n : Nat) : List Nat :=
  (v003ScanCounters n).flatMap fun i => [i - 1, i, i + 1]

/-- All buffer indices the sensor.cpp fallback scan reads (loop counters
2 .. N-2). -/
def fixedScanReads (n : Nat) : List Nat :=
  (List.range' 2 (n - 3)).flatMap fun i => [i - 1, i, i + 1]

/-- C9 (failing evaluation): with the configured window length 50, the
part_003 fallback scan reads buffer index 50 — one past the last valid
index 49 of `irBuffer`. -/
theorem v003_scan_reads_out_of_bounds : 50 ∈ v003ScanReads 50 := by decide

theorem fixedScanReads_in_bounds (n : Nat) : ∀ j ∈ fixedScanReads n, j < n := by
  intro j hj
  unfold fixedScanReads at hj
  rw [List.mem_flatMap] at hj
  obtain ⟨i, hi, hji⟩ := hj
  rw [List.mem_range'_1] at hi
  simp at hji
  omega

theorem getD_of_lt (l : List Int) (j : Nat) (h : j < l.length) : l.getD j 0 = l[j] := by
  simp [List.getD_eq_getElem?_getD, List.getElem?_eq_getElem h]

theorem sum_take_bounds (l : List Int) (n : Nat) (hn : n ≤ l.length)
    (hb : ∀ j, j < n → 40 ≤ l.getD j 0 ∧ l.getD j 0 ≤ 200) :
    40 * (n : Int) ≤ (l.take n).sum ∧ (l.take n).sum ≤ 200 * (n : Int) := by
  induction n with
  | zero => simp
  | succ m ih =>
      have hm : m < l.length := by omega
      have hx := hb m (by omega)
      have ihm := ih (by omega) (fun j hj => hb j (by omega))
      have htake : l.take (m + 1) = l.take m ++ [l.getD m 0] := by
        rw [List.take_succ, List.getElem?_eq_getElem hm, getD_of_lt l m hm]
        rfl
      rw [htake, List.sum_append]
      push_cast
      simp only [List.sum_cons, List.sum_nil, add_zero]
      constructor
      · linarith [ihm.1, hx.1]
      · linarith [ihm.2, hx.2]

theorem tdiv_mean_bounds (s : Int) (c : Nat) (hc : 0 < c)
    (h1 : 40 * (c : Int) ≤ s) (h2 : s ≤ 200 * (c : Int)) :
    40 ≤ s.tdiv (c : Int) ∧ s.tdiv (c : Int) ≤ 200 := by
  have hc0 : (0 : Int) < (c : Int) := by exact_mod_cast hc
  have hs : (0 : Int) ≤ s := by nlinarith
  rw [Int.tdiv_eq_ediv hs (le_of_lt hc0)]
  constructor
  · rw [Int.le_ediv_iff_mul_le hc0]
    linarith
  · have hd := Int.ediv_le_ediv hc0 h2
    rwa [Int.mul_ediv_cancel 200 (ne_of_gt hc0)] at hd

/-- Index-based history invariant: the history has its fixed capacity and
every already-written slot holds a value accepted within [40, 200]. -/
def histInv (st : SensorState) : Prop :=
  st.hrHistory.length = HR_HISTORY_SIZE ∧
  ∀ j, j < min st.hrIndex HR_HISTORY_SIZE →
    40 ≤ st.hrHistory.getD j 0 ∧ st.hrHistory.getD j 0 ≤ 200

/-- Stabilizer invariant: the history slots are in bounds, and a true
validity flag implies the reported heart rate is in bounds. -/
def hrInv (st : SensorState) : Prop :=
  histInv st ∧ (st.validHeartRate = true → 40 ≤ st.heartRate ∧ st.heartRate ≤ 200)

theorem smoothHRAccept_inv (st : SensorState) (hh : histInv st)
    (h40 : 40 ≤ st.heartRate) (h200 : st.heartRate ≤ 200) :
    histInv (smoothHRAccept st) ∧
    40 ≤ (smoothHRAccept st).heartRate ∧ (smoothHRAccept st).heartRate ≤ 200 ∧
    (smoothHRAccept st).validHeartRate = st.validHeartRate := by
  obtain ⟨hlen, hslots⟩ := hh
  have h8 : HR_HISTORY_SIZE = 8 := rfl
  have hlen8 : st.hrHistory.length = 8 := by rw [hlen, h8]
  unfold smoothHRAccept
  dsimp only
  have hslots' : ∀ j, j < min (st.hrIndex + 1) HR_HISTORY_SIZE →
      40 ≤ (st.hrHistory.set (st.hrIndex % HR_HISTORY_SIZE) st.heartRate).getD j 0 ∧
        (st.hrHistory.set (st.hrIndex % HR_HISTORY_SIZE) st.heartRate).getD j 0 ≤ 200 := by
    intro j hj
    have hjlen : j < (st.hrHistory.set (st.hrIndex % HR_HISTORY_SIZE) st.heartRate).length := by
      rw [List.length_set, hlen8]
      rw [h8] at hj
      omega
    rw [getD_of_lt _ j hjlen, List.getElem_set]
    split
    · exact ⟨h40, h200⟩
    · next hne =>
        have hjmin : j < min st.hrIndex HR_HISTORY_SIZE := by
          rw [h8] at hj hne ⊢
          have := Nat.mod_lt st.hrIndex (show 0 < 8 by omega)
          omega
        have hold := hslots j hjmin
        rwa [getD_of_lt st.hrHistory j (by rw [hlen8]; rw [h8] at hjmin; omega)] at hold
  refine ⟨⟨by rw [List.length_set, hlen], ?_⟩, ?_, ?_, rfl⟩
  · intro j hj
    dsimp only at hj
    exact hslots' j (by omega)
  · have hcount : 0 < min (st.hrIndex + 1) HR_HISTORY_SIZE := by
      rw [h8]
      omega
    have hsum := sum_take_bounds (st.hrHistory.set (st.hrIndex % HR_HISTORY_SIZE) st.heartRate)
      (min (st.hrIndex + 1) HR_HISTORY_SIZE)
      (by rw [List.length_set, hlen8, h8]; omega)
      (fun j hj => hslots' j hj)
    exact (tdiv_mean_bounds _ _ hcount hsum.1 hsum.2).1
  · have hcount : 0 < min (st.hrIndex + 1) HR_HISTORY_SIZE := by
      rw [h8]
      omega
    have hsum := sum_take_bounds (st.hrHistory.set (st.hrIndex % HR_HISTORY_SIZE) st.heartRate)
      (min (st.hrIndex + 1) HR_HISTORY_SIZE)
      (by rw [List.length_set, hlen8, h8]; omega)
      (fun j hj => hslots' j hj)
    exact (tdiv_mean_bounds _ _ hcount hsum.1 hsum.2).2

theorem smoothHR_inv (st : SensorState) (hh : histInv st)
    (h40 : 40 ≤ st.heartRate) (h200 : st.heartRate ≤ 200) :
    histInv (smoothHR st) ∧
    ((smoothHR st).validHeartRate = true →
      40 ≤ (smoothHR st).heartRate ∧ (smoothHR st).heartRate ≤ 200) := by
  unfold smoothHR
  split
  · dsimp only
    split
    · exact ⟨hh, fun hv => absurd hv (by simp)⟩
    · obtain ⟨h1, h2, h3, _⟩ := smoothHRAccept_inv st hh h40 h200
      exact ⟨h1, fun _ => ⟨h2, h3⟩⟩
  · obtain ⟨h1, h2, h3, _⟩ := smoothHRAccept_inv st hh h40 h200
    exact ⟨h1, fun _ => ⟨h2, h3⟩⟩

theorem calculateHRSpO2_inv (alg : List Int → List Int → AlgOutput)
    (st : SensorState) (h : hrInv st) : hrInv (calculateHRSpO2 alg st) := by
  obtain ⟨hh, _⟩ := h
  unfold calculateHRSpO2
  dsimp only
  split
  · next hcond =>
      simp only [Bool.and_eq_true, decide_eq_true_eq] at hcond
      have hstep := smoothHR_inv
        { st with irBuffer := restoreDC (dcMean st.irBuffer) (removeDC (dcMean st.irBuffer) st.irBuffer)
                  redBuffer := restoreDC (dcMean st.redBuffer) (removeDC (dcMean st.redBuffer) st.redBuffer)
                  heartRate := (alg (removeDC (dcMean st.irBuffer) st.irBuffer)
                    (removeDC (dcMean st.redBuffer) st.redBuffer)).n_hr
                  validHeartRate := true }
        hh hcond.1.2 hcond.2
      exact ⟨hstep.1, hstep.2⟩
  · exact ⟨hh, fun hv => absurd hv (by simp)⟩

/-- Initial sensor state after `SensorManager::init`: zeroed history, cursor
at 0, no valid readings yet. -/
def initSensorState (ir red : List Int) : SensorState :=
  { irBuffer := ir
    redBuffer := red
    hrHistory := List.replicate HR_HISTORY_SIZE 0
    hrIndex := 0
    heartRate := 0
    spo2 := 0
    validHeartRate := false
    validSpo2 := false }

/-- Any sequence of measurement cycles: each cycle invokes the external
algorithm (whose output is arbitrary, listed in `outs`) and post-processes
it through `calculateHRSpO2`. -/
def runCalc (outs : List AlgOutput) (st : SensorState) : SensorState :=
  outs.foldl (fun s o => calculateHRSpO2 (fun _ _ => o) s) st

theorem runCalc_inv (outs : List AlgOutput) (st : SensorState) (h : hrInv st) :
    hrInv (runCalc outs st) := by
  induction outs generalizing st with
  | nil => exact h
  | cons o os ih => exact ih (calculateHRSpO2 (fun _ _ => o) st) (calculateHRSpO2_inv _ st h)

/-- C10: in the sensor.cpp variant (no fallback path), after any sequence of
`calculateHRSpO2` cycles from the initial state, a true `validHeartRate`
implies the reported (smoothed) heart rate lies within [40, 200]: the
smoothed output is the truncated mean of history entries that were each
accepted within [40, 200]. -/
theorem runCalc_heartRate_bounded (outs : List AlgOutput) (ir red : List Int)
    (h : (runCalc outs (initSensorState ir red)).validHeartRate = true) :
    40 ≤ (runCalc outs (initSensorState ir red)).heartRate ∧
    (runCalc outs (initSensorState ir red)).heartRate ≤ 200 := by
  have hinit : hrInv (initSensorState ir red) := by
    refine ⟨⟨by simp [initSensorState], ?_⟩, ?_⟩
    · intro j hj
      exact absurd hj (by simp [initSensorState])
    · intro hv
      exact absurd hv (by simp [initSensorState])
  exact (runCalc_inv outs (initSensorState ir red) hinit).2 h

theorem runCalc_heartRate_bounded_witness :
    (runCalc [⟨95, true, 72, true⟩] (initSensorState [0] [0])).validHeartRate = true ∧
    40 ≤ (runCalc [⟨95, true, 72, true⟩] (initSensorState [0] [0])).heartRate ∧
    (runCalc [⟨95, true, 72, true⟩] (initSensorState [0] [0])).heartRate ≤ 200 :=
  ⟨by decide,
   (runCalc_heartRate_bounded [⟨95, true, 72, true⟩] [0] [0] (by decide)).1,
   (runCalc_heartRate_bounded [⟨95, true, 72, true⟩] [0] [0] (by decide)).2⟩

end BioWatch
